import Mathlib

/-!
Verification development for the W-7 Form Processor (`server/app.py`).

The Python strings manipulated by the program are modelled as `List Char`
(`Str`), so that every operation is an executable structural recursion.
Python single-character operations (`find`, `rfind`, `split`, `strip`,
`zfill`, `lower`, `replace`, slicing) are embedded one-to-one below.
Unicode-specific behaviour (non-ASCII case folding, surrogate pairs in
JSON string escapes) is outside the character sets exercised here and is
modelled by the corresponding ASCII/`Char` operation.
-/

abbrev Str := List Char

/-- A few characters referenced by name throughout. -/
def lbrace : Char := Char.ofNat 123

def rbrace : Char := Char.ofNat 125

def btick : Char := Char.ofNat 96

def dquote : Char := Char.ofNat 34

def bslash : Char := Char.ofNat 92

def squote : Char := Char.ofNat 39

/-- Whitespace recognised by Python `str.strip` (ASCII part). -/
def isPySpace (c : Char) : Bool :=
  c = ' ' || c = Char.ofNat 9 || c = Char.ofNat 10 || c = Char.ofNat 13 ||
  c = Char.ofNat 11 || c = Char.ofNat 12

/-- Python `str.strip()` on both ends. -/
def pyStrip (t : Str) : Str :=
  ((t.dropWhile isPySpace).reverse.dropWhile isPySpace).reverse

/-- Python `str.lower()` (ASCII case folding). -/
def pyLower (t : Str) : Str := t.map Char.toLower

/-- Python `str.replace(a, b)` for single characters. -/
def pyReplaceChar (a b : Char) (t : Str) : Str :=
  t.map (fun c => if c = a then b else c)

/-- Python `str.find(pat)`: index of the first occurrence, `none` for `-1`. -/
def pyFind : Str → Str → Option Nat
  | [], pat => if pat.isEmpty then some 0 else none
  | t@(_ :: rest), pat =>
    if pat.isPrefixOf t then some 0 else (pyFind rest pat).map (· + 1)

/-- Python `str.find(pat, start)`. -/
def pyFindFrom (t pat : Str) (i : Nat) : Option Nat :=
  (pyFind (t.drop i) pat).map (· + i)

/-- Python `pat in t` substring test. -/
def hasSub (t pat : Str) : Bool := (pyFind t pat).isSome

/-- Python `str.rfind(c)` for a single character. -/
def pyRFindChar : Str → Char → Option Nat
  | [], _ => none
  | c :: rest, ch =>
    match pyRFindChar rest ch with
    | some i => some (i + 1)
    | none => if c = ch then some 0 else none

/-- Python slice `t[a:b]` for `0 ≤ a ≤ b`. -/
def pySlice (t : Str) (a b : Nat) : Str := (t.drop a).take (b - a)

/-- Python `str.split(c)` for a single-character separator. -/
def pySplitChar (c : Char) : Str → List Str
  | [] => [[]]
  | ch :: rest =>
    let r := pySplitChar c rest
    if ch = c then [] :: r
    else
      match r with
      | h :: tl => (ch :: h) :: tl
      | [] => [[ch]]

/-- Python `str.zfill(w)` (pads with zeros after an optional sign). -/
def pyZfill (w : Nat) (t : Str) : Str :=
  match t with
  | c :: rest =>
    if c = '-' ∨ c = '+' then c :: (List.replicate (w - t.length) '0' ++ rest)
    else List.replicate (w - t.length) '0' ++ t
  | [] => List.replicate w '0'

-- quick sanity examples (kept as anonymous examples, they cost nothing)
example : pySplitChar '/' ("03/15/1985".toList) =
    ["03".toList, "15".toList, "1985".toList] := by decide
example : pyZfill 2 ("3".toList) = "03".toList := by decide
example : pyStrip (" ab ".toList) = "ab".toList := by decide
example : pyFind ("ab".toList) ("b".toList) = some 1 := by decide
example : pyRFindChar ("aba".toList) 'a' = some 2 := by decide

/-!
## Python values

The values flowing through the pipeline are the values `json.loads` can
produce. Non-integral JSON numbers are kept as their source token
(`numRaw`); their numeric value is never inspected by the program, only
their truthiness and string rendering, both of which are modelled.
-/

inductive JVal where
  | obj (fields : List (Str × JVal))
  | arr (elems : List JVal)
  | str (v : Str)
  | int (n : Int)
  | numRaw (token : Str)
  | bool (b : Bool)
  | null

instance : Inhabited JVal := ⟨JVal.null⟩

/-- `True` iff every mantissa digit of a JSON float token is zero
(`"0.00e7"` is zero, `"0.5"` is not). Tokens that are not zero-valued
number tokens (such as `NaN`, `Infinity`) are correctly reported nonzero.
Known limitation: a token whose float value underflows to zero (such as
`"1e-400"`) is reported nonzero here though Python's parsed float is
falsy; no theorem below depends on float truthiness. -/
def numTokenIsZero (t : Str) : Bool :=
  let body := (t.dropWhile (fun c => c = '-' || c = '+')).takeWhile
    (fun c => c ≠ 'e' ∧ c ≠ 'E')
  let digits := body.filter (fun c => c ≠ '.')
  !digits.isEmpty && digits.all (fun c => c = '0')

/-- Python truthiness (`bool(value)`) of a JSON-produced value. -/
def truthy : JVal → Bool
  | .obj fs => !fs.isEmpty
  | .arr vs => !vs.isEmpty
  | .str t => !t.isEmpty
  | .int n => decide (n ≠ 0)
  | .numRaw t => !numTokenIsZero t
  | .bool b => b
  | .null => false

/-- Python dict assignment `d[k] = v`: update in place on an existing key,
append otherwise. -/
def dictInsert {α : Type} : List (Str × α) → Str → α → List (Str × α)
  | [], k, v => [(k, v)]
  | (k', v') :: rest, k, v =>
    if k' = k then (k', v) :: rest else (k', v') :: dictInsert rest k v

/-- Python dict lookup `d[k]` / `k in d`: first (only) binding of `k`. -/
def lookupAssoc {α : Type} : List (Str × α) → Str → Option α
  | [], _ => none
  | (k', v') :: rest, k => if k' = k then some v' else lookupAssoc rest k

mutual

/-- Python `repr` of a JSON-produced value (string escaping inside `repr`
of strings is not modelled; the characters exercised here need none). -/
def pyRepr : JVal → Str
  | .obj fs => lbrace :: pyReprFields fs ++ [rbrace]
  | .arr vs => '[' :: pyReprList vs ++ [']']
  | .str v => squote :: v ++ [squote]
  | .int n => if n < 0 then '-' :: Nat.toDigits 10 n.natAbs else Nat.toDigits 10 n.natAbs
  | .numRaw t => t
  | .bool true => "True".toList
  | .bool false => "False".toList
  | .null => "None".toList

def pyReprFields : List (Str × JVal) → Str
  | [] => []
  | [(k, v)] => squote :: k ++ [squote, ':', ' '] ++ pyRepr v
  | (k, v) :: rest =>
    squote :: k ++ [squote, ':', ' '] ++ pyRepr v ++ [',', ' '] ++ pyReprFields rest

def pyReprList : List JVal → Str
  | [] => []
  | [v] => pyRepr v
  | v :: rest => pyRepr v ++ [',', ' '] ++ pyReprList rest

end

/-- Python `str(value)` for a JSON-produced value. Known limitation: a
`numRaw` renders as its source token (`"1.5e3"`) where Python renders
the parsed float (`"1500.0"`); no theorem below depends on float text
rendering. -/
def pyStr : JVal → Str
  | .str t => t
  | v => pyRepr v

example : pyStr (.bool true) = "True".toList := rfl
example : truthy (.str ("false".toList)) = true := rfl
example : truthy (.int 0) = false := rfl
example : pyStr (.arr [.str ("a".toList)]) =
    "[".toList ++ [squote, 'a', squote] ++ "]".toList := rfl

/-!
## `json.loads`

A faithful executable model of Python's strict JSON decoder: the six JSON
value forms plus the `NaN`/`Infinity`/`-Infinity` extensions Python
accepts, insertion-ordered objects with last-wins duplicate keys,
rejection of trailing data, trailing commas, leading zeros, and raw
control characters in strings.
-/

/-- JSON whitespace (`json.decoder`: space, tab, newline, carriage return). -/
def isJsonWs (c : Char) : Bool :=
  c = ' ' || c = Char.ofNat 9 || c = Char.ofNat 10 || c = Char.ofNat 13

def skipWs (t : Str) : Str := t.dropWhile isJsonWs

def hexVal (c : Char) : Option Nat :=
  if c.isDigit then some (c.toNat - 48)
  else if 'a' ≤ c ∧ c ≤ 'f' then some (c.toNat - 87)
  else if 'A' ≤ c ∧ c ≤ 'F' then some (c.toNat - 55)
  else none

/-- Body of a JSON string after the opening quote; returns the decoded
characters and the input following the closing quote. Surrogate-pair
recombination of consecutive d800–dfff escapes is not modelled. -/
def parseStringBody : Str → Option (Str × Str)
  | [] => none
  | c :: rest =>
    if c = dquote then some ([], rest)
    else if c = bslash then
      match rest with
      | [] => none
      | e :: rest2 =>
        if e = dquote ∨ e = bslash ∨ e = '/' then
          (parseStringBody rest2).map (fun p => (e :: p.1, p.2))
        else if e = 'b' then (parseStringBody rest2).map (fun p => (Char.ofNat 8 :: p.1, p.2))
        else if e = 'f' then (parseStringBody rest2).map (fun p => (Char.ofNat 12 :: p.1, p.2))
        else if e = 'n' then (parseStringBody rest2).map (fun p => (Char.ofNat 10 :: p.1, p.2))
        else if e = 'r' then (parseStringBody rest2).map (fun p => (Char.ofNat 13 :: p.1, p.2))
        else if e = 't' then (parseStringBody rest2).map (fun p => (Char.ofNat 9 :: p.1, p.2))
        else if e = 'u' then
          match rest2 with
          | h1 :: h2 :: h3 :: h4 :: rest3 =>
            match hexVal h1, hexVal h2, hexVal h3, hexVal h4 with
            | some a, some b, some c2, some d =>
              (parseStringBody rest3).map
                (fun p => (Char.ofNat (a * 4096 + b * 256 + c2 * 16 + d) :: p.1, p.2))
            | _, _, _, _ => none
          | _ => none
        else none
    else if c.toNat < 32 then none
    else (parseStringBody rest).map (fun p => (c :: p.1, p.2))

/-- JSON number at the head of the input (first character a digit or `-`).
Integral tokens become `JVal.int`; tokens with a fraction or exponent keep
their source text as `JVal.numRaw`. -/
def parseNumber (t : Str) : Option (JVal × Str) :=
  let neg := t.head? = some '-'
  let t1 := if neg then t.drop 1 else t
  let intd := t1.takeWhile Char.isDigit
  let r1 := t1.dropWhile Char.isDigit
  if intd.isEmpty then none
  else if 1 < intd.length ∧ intd.head? = some '0' then none
  else
    let fr : Bool × Str × Str :=
      if r1.head? = some '.' then
        let f := (r1.drop 1).takeWhile Char.isDigit
        (!f.isEmpty, f, (r1.drop 1).dropWhile Char.isDigit)
      else (true, [], r1)
    if fr.1 = false then none
    else
      let r2 := fr.2.2
      let ex : Bool × Str × Str :=
        if r2.head? = some 'e' ∨ r2.head? = some 'E' then
          let r2a := r2.drop 1
          let r2b := if r2a.head? = some '+' ∨ r2a.head? = some '-' then r2a.drop 1 else r2a
          let e := r2b.takeWhile Char.isDigit
          (!e.isEmpty, e, r2b.dropWhile Char.isDigit)
        else (true, [], r2)
      if ex.1 = false then none
      else
        let r3 := ex.2.2
        if fr.2.1.isEmpty ∧ ex.2.1.isEmpty then
          let n : Int := Int.ofNat (intd.foldl (fun a c => a * 10 + (c.toNat - 48)) 0)
          some (.int (if neg then -n else n), r3)
        else
          some (.numRaw (t.take (t.length - r3.length)), r3)

mutual

/-- One JSON value, preceded by optional whitespace; returns the remaining
input. `fuel` only bounds recursion depth and is chosen large enough by
`parseJson`. -/
def parseVal : Nat → Str → Option (JVal × Str)
  | 0, _ => none
  | Nat.succ fuel, t0 =>
    let t := skipWs t0
    match t with
    | [] => none
    | c :: rest =>
      if c = lbrace then
        let r := skipWs rest
        if r.head? = some rbrace then some (.obj [], r.drop 1)
        else parseMembers fuel r []
      else if c = '[' then
        let r := skipWs rest
        if r.head? = some ']' then some (.arr [], r.drop 1)
        else parseElems fuel r []
      else if c = dquote then
        (parseStringBody rest).map (fun p => (.str p.1, p.2))
      else if c = 't' then
        if ("rue".toList).isPrefixOf rest then some (.bool true, rest.drop 3) else none
      else if c = 'f' then
        if ("alse".toList).isPrefixOf rest then some (.bool false, rest.drop 4) else none
      else if c = 'n' then
        if ("ull".toList).isPrefixOf rest then some (.null, rest.drop 3) else none
      else if c = 'N' then
        if ("aN".toList).isPrefixOf rest then some (.numRaw ("NaN".toList), rest.drop 2) else none
      else if c = 'I' then
        if ("nfinity".toList).isPrefixOf rest then
          some (.numRaw ("Infinity".toList), rest.drop 7)
        else none
      else if c = '-' ∧ rest.head? = some 'I' then
        if ("Infinity".toList).isPrefixOf rest then
          some (.numRaw ("-Infinity".toList), rest.drop 8)
        else none
      else parseNumber (c :: rest)

/-- Members of an object, positioned at a key string (whitespace already
skipped, object known non-empty). -/
def parseMembers : Nat → Str → List (Str × JVal) → Option (JVal × Str)
  | 0, _, _ => none
  | Nat.succ fuel, t, acc =>
    match t with
    | [] => none
    | c :: rest =>
      if c = dquote then
        match parseStringBody rest with
        | some (k, r1) =>
          let r2 := skipWs r1
          if r2.head? = some ':' then
            match parseVal fuel (r2.drop 1) with
            | some (v, r3) =>
              let acc2 := dictInsert acc k v
              match skipWs r3 with
              | ch :: r5 =>
                if ch = ',' then parseMembers fuel (skipWs r5) acc2
                else if ch = rbrace then some (.obj acc2, r5)
                else none
              | [] => none
            | none => none
          else none
        | none => none
      else none

/-- Elements of an array, positioned at a value (array known non-empty). -/
def parseElems : Nat → Str → List JVal → Option (JVal × Str)
  | 0, _, _ => none
  | Nat.succ fuel, t, acc =>
    match parseVal fuel t with
    | some (v, r1) =>
      match skipWs r1 with
      | ch :: r3 =>
        if ch = ',' then parseElems fuel r3 (acc ++ [v])
        else if ch = ']' then some (.arr (acc ++ [v]), r3)
        else none
      | [] => none
    | none => none

end

/-- `json.loads`: parse one value and reject trailing non-whitespace. -/
def parseJson (t : Str) : Option JVal :=
  match parseVal (2 * t.length + 2) t with
  | some (v, rest) => if (skipWs rest).isEmpty then some v else none
  | none => none

example : parseJson ("42".toList) = some (.int 42) := rfl
example : parseJson (" \x7b \x7d ".toList) = some (.obj []) := rfl
example : parseJson ("\x7b\x22a\x22: [1, true, null]\x7d".toList) =
    some (.obj [("a".toList, .arr [.int 1, .bool true, .null])]) := rfl
example : parseJson ("\x7b\x22a\x22: 1,\x7d".toList) = none := rfl
example : parseJson ("1.5e3".toList) = some (.numRaw ("1.5e3".toList)) := rfl
example : parseJson ("042".toList) = none := rfl
example : parseJson ("\x7b\x7b\x7d".toList) = none := rfl
example : parseJson ("\x22a\x5cnb\x22".toList) =
    some (.str ['a', Char.ofNat 10, 'b']) := rfl
example : parseJson ("\x7b\x22k\x22:1, \x22k\x22:2\x7d".toList) =
    some (.obj [("k".toList, .int 2)]) := rfl

/-!
## Field Dictionary

`W7FormProcessor.create_w7_field_mapping`, transcribed entry for entry.
-/

def fieldMapping : List (Str × Str) := [
  ("application_type_new".toList, "topmostSubform[0].Page1[0].c1_1[0]".toList),
  ("application_type_renew".toList, "topmostSubform[0].Page1[0].c1_1[1]".toList),
  ("reason_a".toList, "topmostSubform[0].Page1[0].c1_2[0]".toList),
  ("reason_b".toList, "topmostSubform[0].Page1[0].c1_3[0]".toList),
  ("reason_c".toList, "topmostSubform[0].Page1[0].c1_4[0]".toList),
  ("reason_d".toList, "topmostSubform[0].Page1[0].c1_5[0]".toList),
  ("reason_e".toList, "topmostSubform[0].Page1[0].c1_6[0]".toList),
  ("reason_f".toList, "topmostSubform[0].Page1[0].c1_7[0]".toList),
  ("reason_g".toList, "topmostSubform[0].Page1[0].c1_8[0]".toList),
  ("reason_h".toList, "topmostSubform[0].Page1[0].c1_9[0]".toList),
  ("reason_d_relationship".toList, "topmostSubform[0].Page1[0].f1_01[0]".toList),
  ("reason_de_name1".toList, "topmostSubform[0].Page1[0].f1_02[0]".toList),
  ("reason_de_name2".toList, "topmostSubform[0].Page1[0].f1_03[0]".toList),
  ("reason_h_other".toList, "topmostSubform[0].Page1[0].f1_04[0]".toList),
  ("treaty_country1".toList, "topmostSubform[0].Page1[0].f1_05[0]".toList),
  ("treaty_country2".toList, "topmostSubform[0].Page1[0].f1_06[0]".toList),
  ("first_name".toList, "topmostSubform[0].Page1[0].f1_07[0]".toList),
  ("middle_name".toList, "topmostSubform[0].Page1[0].f1_08[0]".toList),
  ("last_name".toList, "topmostSubform[0].Page1[0].f1_09[0]".toList),
  ("first_name_birth".toList, "topmostSubform[0].Page1[0].f1_10[0]".toList),
  ("middle_name_birth".toList, "topmostSubform[0].Page1[0].f1_11[0]".toList),
  ("last_name_birth".toList, "topmostSubform[0].Page1[0].f1_12[0]".toList),
  ("mailing_address".toList, "topmostSubform[0].Page1[0].f1_13[0]".toList),
  ("mailing_city_state_zip".toList, "topmostSubform[0].Page1[0].f1_14[0]".toList),
  ("foreign_address".toList, "topmostSubform[0].Page1[0].f1_15[0]".toList),
  ("foreign_city_state_country".toList, "topmostSubform[0].Page1[0].f1_16[0]".toList),
  ("date_of_birth".toList, "topmostSubform[0].Page1[0].Line4_ReadOrder[0].f1_17[0]".toList),
  ("country_of_birth".toList, "topmostSubform[0].Page1[0].f1_18[0]".toList),
  ("city_state_birth".toList, "topmostSubform[0].Page1[0].f1_19[0]".toList),
  ("gender_male".toList, "topmostSubform[0].Page1[0].c1_10[0]".toList),
  ("gender_female".toList, "topmostSubform[0].Page1[0].c1_10[1]".toList),
  ("country_of_citizenship".toList, "topmostSubform[0].Page1[0].f1_20[0]".toList),
  ("foreign_tax_id".toList, "topmostSubform[0].Page1[0].f1_21[0]".toList),
  ("visa_info".toList, "topmostSubform[0].Page1[0].f1_22[0]".toList),
  ("id_passport".toList, "topmostSubform[0].Page1[0].c1_11[0]".toList),
  ("id_drivers_license".toList, "topmostSubform[0].Page1[0].c1_11[1]".toList),
  ("id_uscis".toList, "topmostSubform[0].Page1[0].c1_11[2]".toList),
  ("id_other".toList, "topmostSubform[0].Page1[0].c1_11[3]".toList),
  ("id_other_type".toList, "topmostSubform[0].Page1[0].f1_23[0]".toList),
  ("doc_issued_by".toList, "topmostSubform[0].Page1[0].Issued_ReadOrder[0].f1_24[0]".toList),
  ("doc_number".toList, "topmostSubform[0].Page1[0].Issued_ReadOrder[0].f1_25[0]".toList),
  ("doc_expiration".toList, "topmostSubform[0].Page1[0].Issued_ReadOrder[0].f1_26[0]".toList),
  ("date_of_entry".toList, "topmostSubform[0].Page1[0].f1_27[0]".toList),
  ("previous_itin_no".toList, "topmostSubform[0].Page1[0].c1_12[0]".toList),
  ("previous_itin_yes".toList, "topmostSubform[0].Page1[0].c1_12[1]".toList),
  ("previous_itin_first_3".toList, "topmostSubform[0].Page1[0].ITIN[0].f1_28[0]".toList),
  ("previous_itin_middle_2".toList, "topmostSubform[0].Page1[0].ITIN[0].f1_29[0]".toList),
  ("previous_itin_last_3".toList, "topmostSubform[0].Page1[0].ITIN[0].f1_30[0]".toList),
  ("previous_irsn_first_3".toList, "topmostSubform[0].Page1[0].IRSN[0].f1_31[0]".toList),
  ("previous_irsn_middle_2".toList, "topmostSubform[0].Page1[0].IRSN[0].f1_32[0]".toList),
  ("previous_irsn_last_3".toList, "topmostSubform[0].Page1[0].IRSN[0].f1_33[0]".toList),
  ("previous_itin_name_first".toList, "topmostSubform[0].Page1[0].f1_34[0]".toList),
  ("previous_itin_name_middle".toList, "topmostSubform[0].Page1[0].f1_35[0]".toList),
  ("previous_itin_name_last".toList, "topmostSubform[0].Page1[0].f1_36[0]".toList),
  ("college_company_name".toList, "topmostSubform[0].Page1[0].f1_37[0]".toList),
  ("college_company_city_state".toList, "topmostSubform[0].Page1[0].f1_38[0]".toList),
  ("length_of_stay".toList, "topmostSubform[0].Page1[0].f1_39[0]".toList),
  ("phone_number".toList, "topmostSubform[0].Page1[0].f1_40[0]".toList),
  ("delegate_name".toList, "topmostSubform[0].Page1[0].f1_41[0]".toList),
  ("delegate_parent".toList, "topmostSubform[0].Page1[0].c1_13[0]".toList),
  ("delegate_power_attorney".toList, "topmostSubform[0].Page1[0].c1_13[1]".toList),
  ("delegate_court_guardian".toList, "topmostSubform[0].Page1[0].c1_13[2]".toList),
  ("agent_phone".toList, "topmostSubform[0].Page1[0].f1_42[0]".toList),
  ("agent_fax".toList, "topmostSubform[0].Page1[0].f1_43[0]".toList),
  ("agent_name_title".toList, "topmostSubform[0].Page1[0].f1_44[0]".toList),
  ("agent_company".toList, "topmostSubform[0].Page1[0].f1_45[0]".toList),
  ("agent_ein".toList, "topmostSubform[0].Page1[0].f1_46[0]".toList),
  ("agent_ptin".toList, "topmostSubform[0].Page1[0].f1_47[0]".toList),
  ("agent_office_code".toList, "topmostSubform[0].Page1[0].f1_48[0]".toList)]

/-!
## Form Writer translation (`transform_data_to_pdf_format`)
-/

def dobKey : Str := "date_of_birth".toList

/-- The date-normalization block of `transform_data_to_pdf_format`, as the
pure function it applies to the string image of the birth-date value. -/
def normalizeDOB (t : Str) : Str :=
  if t.contains '/' then
    match pySplitChar '/' t with
    | [m, d, y] => pyZfill 2 m ++ pyZfill 2 d ++ y
    | _ => t
  else if t.contains '-' then
    match pySplitChar '-' t with
    | [y, m, d] => pyZfill 2 m ++ pyZfill 2 d ++ y
    | _ => t
  else t

/-- The same block on an arbitrary value: the branch tests and splits act
on `str(value)`, and a fired branch replaces the value by the rebuilt
string. (`try/except` around it cannot fire: every step is total.) -/
def normalizeDOBVal (v : JVal) : JVal :=
  let t := pyStr v
  if t.contains '/' then
    match pySplitChar '/' t with
    | [m, d, y] => .str (pyZfill 2 m ++ pyZfill 2 d ++ y)
    | _ => v
  else if t.contains '-' then
    match pySplitChar '-' t with
    | [y, m, d] => .str (pyZfill 2 m ++ pyZfill 2 d ++ y)
    | _ => v
  else v

/-- Per-entry value transformation: normalization applies only to a truthy
value under the `date_of_birth` key. -/
def transformValue (k : Str) (v : JVal) : JVal :=
  if k = dobKey ∧ truthy v = true then normalizeDOBVal v else v

/-- The loop of `transform_data_to_pdf_format` over `form_data.items()`. -/
def transformAux : List (Str × JVal) → List (Str × JVal) → List (Str × JVal)
  | acc, [] => acc
  | acc, (k, v) :: rest =>
    match lookupAssoc fieldMapping k with
    | some tgt => transformAux (dictInsert acc tgt (transformValue k v)) rest
    | none => transformAux acc rest

def transform_data_to_pdf_format (form_data : List (Str × JVal)) : List (Str × JVal) :=
  transformAux [] form_data

example : normalizeDOB ("03/15/1985".toList) = "03151985".toList := rfl
example : normalizeDOB ("1985-03-15".toList) = "03151985".toList := rfl
example : normalizeDOB ("03151985".toList) = "03151985".toList := rfl
example : transform_data_to_pdf_format
    [("unknown_key".toList, .str ("x".toList)), ("first_name".toList, .str ("Jane".toList))] =
    [("topmostSubform[0].Page1[0].f1_07[0]".toList, .str ("Jane".toList))] := rfl

/-!
## External Mapping Client: JSON extraction (`call_openai_api`, lines 421–447)

`content` below is the response text after the `.strip()` on line 418.
-/

def fence3 : Str := [btick, btick, btick]

def fenceJson : Str := fence3 ++ "json".toList

/-- Markdown-fence removal (lines 424–434). -/
def fencePhase (jc : Str) : Str :=
  if hasSub jc fenceJson then
    match pyFind jc fenceJson with
    | some i =>
      match pyFindFrom jc fence3 (i + 7) with
      | some e => pyStrip (pySlice jc (i + 7) e)
      | none => jc
    | none => jc
  else if hasSub jc fence3 then
    match pyFind jc fence3 with
    | some i =>
      match pyFindFrom jc fence3 (i + 3) with
      | some e => pyStrip (pySlice jc (i + 3) e)
      | none => jc
    | none => jc
  else jc

/-- First-`{`-to-last-`}` trimming (lines 436–441). -/
def bracePhase (jc : Str) : Str :=
  match pyFind jc [lbrace], pyRFindChar jc rbrace with
  | some sb, some eb => if sb < eb then pySlice jc sb (eb + 1) else jc
  | _, _ => jc

def extractJson (content : Str) : Str := bracePhase (fencePhase content)

/-- The `json.loads` result of the extracted text, `none` when parsing
raises (caught on line 449). This is the parse outcome itself; the value
`call_openai_api` hands back to its caller is `call_openai_api` below,
which cannot tell a parsed JSON `null` apart from a failure. -/
def extractAndParse (content : Str) : Option JVal := parseJson (extractJson content)

/-- The return value of `call_openai_api` at its boundary. The function
returns `parsed_json` on success and Python `None` on any caught error —
but a parsed top-level JSON `null` *is* Python `None`, the very object
the error paths return, so it is indistinguishable from failure and
collapses to `none` here. (Nested `null`s inside objects and arrays are
ordinary values and are unaffected.) -/
def call_openai_api (content : Str) : Option JVal :=
  match parseJson (extractJson content) with
  | some JVal.null => none
  | r => r

def isObj : JVal → Bool
  | .obj _ => true
  | _ => false

example : extractAndParse ("\x7b\x22a\x22: 1\x7d".toList) =
    some (.obj [("a".toList, .int 1)]) := rfl
example : extractJson ("x ```json \x7b\x7d ``` y".toList) = "\x7b\x7d".toList := rfl
example : extractAndParse ("42".toList) = some (.int 42) := rfl

/-!
## Spreadsheet Loader, Session State, endpoints

A parsed spreadsheet is a `Table`: ordered column headers and rows of
cells positionally aligned with the headers (`none` models a missing
cell, `pd.isna`; otherwise the cell's `str()` image, assuming the default
integer row index and distinct column labels of a freshly read sheet).
`PState` is the process-wide `W7FormProcessor` instance.
-/

structure Table where
  cols : List Str
  rows : List (List (Option Str))

structure ClientEntry where
  first_name : Str
  last_name : Str
  full_name : Str
  row_index : Nat

structure PState where
  form_data : JVal
  excel_data : Option Table
  client_list : List ClientEntry
  filled_pdf_path : Option Str

/-- The state built by `W7FormProcessor.__init__`. -/
def initState : PState :=
  { form_data := .obj [], excel_data := none, client_list := [],
    filled_pdf_path := none }

/-- `pandas.DataFrame.empty`: some axis has length zero. -/
def dfEmpty (t : Table) : Bool := t.rows.isEmpty || t.cols.isEmpty

def getCell (row : List (Option Str)) (i : Nat) : Option Str := (row.get? i).bind id

/-- Header detection: `'first' in col.lower() and 'name' in col.lower()`. -/
def isFirstNameCol (c : Str) : Bool :=
  hasSub (pyLower c) ("first".toList) && hasSub (pyLower c) ("name".toList)

def isLastNameCol (c : Str) : Bool :=
  hasSub (pyLower c) ("last".toList) && hasSub (pyLower c) ("name".toList)

/-- Name cell of a row: `str(row[col]).strip()` when present, else `""`. -/
def nameAt (row : List (Option Str)) (i : Nat) : Str := pyStrip ((getCell row i).getD [])

def mkClientEntry (idx : Nat) (fn ln : Str) : ClientEntry :=
  { first_name := fn, last_name := ln, full_name := fn ++ [' '] ++ ln, row_index := idx }

/-- The `df.iterrows()` loop: one entry per row whose two trimmed name
cells are both non-empty. -/
def extractRoster (fi li : Nat) (rows : List (List (Option Str))) : List ClientEntry :=
  rows.enum.filterMap (fun p =>
    let fn := nameAt p.2 fi
    let ln := nameAt p.2 li
    if fn ≠ [] ∧ ln ≠ [] then some (mkClientEntry p.1 fn ln) else none)

/-- `W7FormProcessor.process_excel_data` as a state transition on the
processor (the `pd.read_excel` I/O that precedes it is outside the model;
a raised read error returns `None` with the state untouched, like the
`dfEmpty` branch below). -/
def process_excel_data (st : PState) (t : Table) : PState × Option (List ClientEntry) :=
  if dfEmpty t then (st, none)
  else
    let st1 := { st with excel_data := some t, client_list := [] }
    match t.cols.findIdx? isFirstNameCol, t.cols.findIdx? isLastNameCol with
    | some fi, some li =>
      let roster := extractRoster fi li t.rows
      ({ st1 with client_list := roster }, some roster)
    | _, _ => (st1, none)

/-- `/api/upload` from the `process_excel_data` call on: status 400 when
the returned client list is `None` or empty (`if not client_list`). -/
def upload_file (st : PState) (t : Table) : PState × Nat :=
  let r := process_excel_data st t
  match r.2 with
  | none => (r.1, 400)
  | some [] => (r.1, 400)
  | some _ => (r.1, 200)

/-- The name comparison of `get_client_data`: `.lower()` on both sides. -/
def clientMatches (fn ln : Str) (c : ClientEntry) : Bool :=
  pyLower c.first_name = pyLower fn && pyLower c.last_name = pyLower ln

/-- `str(key).strip().lower().replace(' ', '_').replace('/', '_')`. -/
def cleanKey (k : Str) : Str :=
  pyReplaceChar '/' '_' (pyReplaceChar ' ' '_' (pyLower (pyStrip k)))

/-- The cleaned `row_data` dict of `get_client_data`. -/
def cleanRow (cols : List Str) (row : List (Option Str)) : List (Str × Str) :=
  cols.enum.foldl (fun acc p => dictInsert acc (cleanKey p.2) ((getCell row p.1).getD [])) []

/-- `W7FormProcessor.get_client_data`; an out-of-range stored row index
would raise in `iloc` and be caught, yielding `None`. -/
def get_client_data (st : PState) (fn ln : Str) : Option (List (Str × Str)) :=
  match st.excel_data with
  | none => none
  | some t =>
    match st.client_list.find? (clientMatches fn ln) with
    | none => none
    | some c =>
      match t.rows.get? c.row_index with
      | some row => some (cleanRow t.cols row)
      | none => none

/-- `/api/generate-pdf`. The filesystem/PyMuPDF work of `fill_w7_pdf` is
abstracted as `fill`, which yields the updated state and the saved path
(`None` on any of its failure branches); the endpoint never calls it when
`processor.form_data` is falsy. -/
def generate_pdf (fill : PState → PState × Option Str) (st : PState) : PState × Nat :=
  if truthy st.form_data then
    match fill st with
    | (st2, some _) => (st2, 200)
    | (st2, none) => (st2, 500)
  else (st, 400)

/-!
## Form Writer field pass (`W7FormFiller.fill_fields`)
-/

inductive WidKind where
  | text
  | checkbox
  | other

inductive FVal where
  | text (t : Str)
  | check (b : Bool)
  | blank

structure Widget where
  field_name : Str
  field_type : WidKind
  fvalue : FVal

/-- One widget of the loop body: a text field receives `str(value)`, a
checkbox receives `bool(value)`, any other widget type (or a name not in
`field_data`) is untouched; the `Nat` is its contribution to
`filled_count`. -/
def fillWidget (fd : List (Str × JVal)) (w : Widget) : Widget × Nat :=
  match lookupAssoc fd w.field_name with
  | none => (w, 0)
  | some v =>
    match w.field_type with
    | .text => ({ w with fvalue := .text (pyStr v) }, 1)
    | .checkbox => ({ w with fvalue := .check (truthy v) }, 1)
    | .other => (w, 0)

/-- `fill_fields` over all pages: the updated document and
`filled_count > 0`. -/
def fill_fields (fd : List (Str × JVal)) (doc : List (List Widget)) :
    List (List Widget) × Bool :=
  let pages := doc.map (fun page => page.map (fillWidget fd))
  (pages.map (fun page => page.map Prod.fst),
   0 < (pages.map (fun page => (page.map Prod.snd).sum)).sum)

/-!
## Helper lemmas: splitting and character membership
-/

lemma pySplitChar_no_sep {c : Char} {a : Str} (h : c ∉ a) : pySplitChar c a = [a] := by
  induction a with
  | nil => rfl
  | cons ch rest ih =>
    have hne : ch ≠ c := fun he => h (he ▸ List.mem_cons_self ch rest)
    have hr : c ∉ rest := fun hm => h (List.mem_cons_of_mem ch hm)
    simp [pySplitChar, hne, ih hr]

lemma pySplitChar_append_sep {c : Char} {a : Str} (r : Str) (h : c ∉ a) :
    pySplitChar c (a ++ c :: r) = a :: pySplitChar c r := by
  induction a with
  | nil => simp [pySplitChar]
  | cons ch rest ih =>
    have hne : ch ≠ c := fun he => h (he ▸ List.mem_cons_self ch rest)
    have hr : c ∉ rest := fun hm => h (List.mem_cons_of_mem ch hm)
    simp only [List.cons_append, pySplitChar, List.append_eq]
    rw [ih hr]
    simp [hne]

lemma notMem_of_all_ne {p : Char → Bool} {t : Str} {c : Char}
    (h : t.all p = true) (hc : p c = false) : c ∉ t := by
  intro hm
  have := List.all_eq_true.mp h c hm
  rw [hc] at this
  exact Bool.noConfusion this

/-- Digit strings, as used by the date forms of the spec. -/
def isDigitStr (t : Str) : Bool := t.all Char.isDigit

lemma slash_notMem_digits {t : Str} (h : isDigitStr t = true) : '/' ∉ t :=
  notMem_of_all_ne h rfl

lemma dash_notMem_digits {t : Str} (h : isDigitStr t = true) : '-' ∉ t :=
  notMem_of_all_ne h rfl

lemma contains_of_mem {t : Str} {c : Char} (h : c ∈ t) : t.contains c = true := by
  simp [List.contains, List.elem_eq_mem, h]

lemma contains_eq_false {t : Str} {c : Char} (h : c ∉ t) : t.contains c = false := by
  simp [List.contains, List.elem_eq_mem, h]

lemma normalizeDOBVal_str (v : Str) : normalizeDOBVal (.str v) = .str (normalizeDOB v) := by
  unfold normalizeDOBVal normalizeDOB pyStr
  by_cases h1 : v.contains '/' = true
  · simp only [h1, if_true]
    rcases hs : pySplitChar '/' v with _ | ⟨a, _ | ⟨b, _ | ⟨cc, _ | _⟩⟩⟩ <;> rfl
  · simp only [h1]
    by_cases h2 : v.contains '-' = true
    · simp only [h2, if_true, if_false, Bool.false_eq_true]
      rcases hs : pySplitChar '-' v with _ | ⟨a, _ | ⟨b, _ | ⟨cc, _ | _⟩⟩⟩ <;> rfl
    · have h1m : ¬ ('/' ∈ v) := fun hm => h1 (contains_of_mem hm)
      have h2m : ¬ ('-' ∈ v) := fun hm => h2 (contains_of_mem hm)
      simp [h1, h2, h1m, h2m]

/-- C2 (confirmed): the Form Writer's birth-date normalization is a pure
function of the value: a date with three digit `/`-separated parts
(`M/D/YYYY` or `MM/DD/YYYY`) is zero-padded and rewritten `MMDDYYYY`; a
date with three digit `-`-separated parts (`YYYY-MM-DD`) is rewritten
`MMDDYYYY`; a value containing neither `/` nor `-` passes through
unchanged (the claim's examples are conjuncts 4–6); and this is exactly
what `transform_data_to_pdf_format` applies to a string under the
birth-date key. The internal `try/except` fallback clause is preserved
vacuously: every step of the embedded normalization is total. -/
theorem claim_C2 :
    (∀ m d y : Str, isDigitStr m = true → isDigitStr d = true → isDigitStr y = true →
      1 ≤ m.length → m.length ≤ 2 → 1 ≤ d.length → d.length ≤ 2 → y.length = 4 →
      normalizeDOB (m ++ '/' :: (d ++ '/' :: y)) = pyZfill 2 m ++ pyZfill 2 d ++ y) ∧
    (∀ m d y : Str, isDigitStr m = true → isDigitStr d = true → isDigitStr y = true →
      1 ≤ m.length → m.length ≤ 2 → 1 ≤ d.length → d.length ≤ 2 → y.length = 4 →
      normalizeDOB (y ++ '-' :: (m ++ '-' :: d)) = pyZfill 2 m ++ pyZfill 2 d ++ y) ∧
    (∀ v : Str, '/' ∉ v → '-' ∉ v → normalizeDOB v = v) ∧
    normalizeDOB ("03/15/1985".toList) = "03151985".toList ∧
    normalizeDOB ("1985-03-15".toList) = "03151985".toList ∧
    normalizeDOB ("03151985".toList) = "03151985".toList ∧
    (∀ v : Str, transformValue dobKey (.str v) = .str (normalizeDOB v)) := by
  refine ⟨?_, ?_, ?_, rfl, rfl, rfl, ?_⟩
  · intro m d y hm hd hy _ _ _ _ _
    have hsm := slash_notMem_digits hm
    have hsd := slash_notMem_digits hd
    have hsy := slash_notMem_digits hy
    have hc : (m ++ '/' :: (d ++ '/' :: y)).contains '/' = true :=
      contains_of_mem (by simp)
    unfold normalizeDOB
    rw [hc, if_pos rfl, pySplitChar_append_sep _ hsm, pySplitChar_append_sep _ hsd,
      pySplitChar_no_sep hsy]
  · intro m d y hm hd hy _ _ _ _ _
    have hv : '/' ∉ y ++ '-' :: (m ++ '-' :: d) := by
      simp only [List.mem_append, List.mem_cons]
      push_neg
      exact ⟨slash_notMem_digits hy, by decide,
        slash_notMem_digits hm, by decide, slash_notMem_digits hd⟩
    have hc1 : (y ++ '-' :: (m ++ '-' :: d)).contains '/' = false := contains_eq_false hv
    have hc2 : (y ++ '-' :: (m ++ '-' :: d)).contains '-' = true :=
      contains_of_mem (by simp)
    unfold normalizeDOB
    rw [hc1, hc2]
    simp only [Bool.false_eq_true, if_false, if_pos rfl]
    rw [pySplitChar_append_sep _ (dash_notMem_digits hy),
      pySplitChar_append_sep _ (dash_notMem_digits hm),
      pySplitChar_no_sep (dash_notMem_digits hd)]
    simp
  · intro v h1 h2
    unfold normalizeDOB
    rw [contains_eq_false h1, contains_eq_false h2]
    rfl
  · intro v
    rcases v with _ | ⟨c, v'⟩
    · rfl
    · have ht : truthy (.str (c :: v')) = true := rfl
      simp only [transformValue, ht, and_true, if_pos rfl, normalizeDOBVal_str]
      simp

/-- Witness for C2: the theorem applied at the one-digit dash form
`"1985-3-5"` and its hypotheses discharged by computation. -/
theorem claim_C2_witness :
    normalizeDOB ("1985".toList ++ '-' :: ("3".toList ++ '-' :: "5".toList)) =
      "03051985".toList :=
  (claim_C2.2.1 ("3".toList) ("5".toList) ("1985".toList) (by decide) (by decide)
    (by decide) (by decide) (by decide) (by decide) (by decide) (by decide)).trans
    (by decide)

/-- C10 (confirmed): a checkbox receives `bool(value)` — generic Python
truthiness, not parsing: any matched checkbox widget is set to
`truthy v`, a non-empty string (including `"false"`) is truthy, and of
the listed falsy values (`false`, `""`, `0`, `null`) each leaves the box
unchecked. -/
theorem claim_C10 :
    (∀ (fd : List (Str × JVal)) (w : Widget) (v : JVal),
      w.field_type = WidKind.checkbox → lookupAssoc fd w.field_name = some v →
      (fillWidget fd w).1.fvalue = .check (truthy v)) ∧
    (∀ t : Str, truthy (.str t) = !t.isEmpty) ∧
    truthy (.str ("false".toList)) = true ∧
    truthy (.bool false) = false ∧
    truthy (.str []) = false ∧
    truthy (.int 0) = false ∧
    truthy .null = false := by
  refine ⟨?_, fun t => rfl, rfl, rfl, rfl, rfl, rfl⟩
  intro fd w v ht hl
  simp [fillWidget, hl, ht]

/-- Witness for C10: the string `"false"` checks a checkbox named
`reason_b`. -/
theorem claim_C10_witness :
    (fillWidget [("reason_b".toList, .str ("false".toList))]
      { field_name := "reason_b".toList, field_type := .checkbox,
        fvalue := .blank }).1.fvalue = FVal.check true :=
  claim_C10.1 [("reason_b".toList, .str ("false".toList))]
    { field_name := "reason_b".toList, field_type := .checkbox, fvalue := .blank }
    (.str ("false".toList)) rfl rfl

/-- The fill oracle used by the C7 witness: a `fill_w7_pdf` stand-in. -/
def fillNone : PState → PState × Option Str := fun st => (st, none)

/-- C7 (confirmed): with empty stored mapped-form data (the startup
value), `/api/generate-pdf` answers 400 and returns the state unchanged —
whatever the PDF-filling step would do, it is never invoked, so no output
file is created and the last-output path stays as it was (unset at
startup). -/
theorem claim_C7 : ∀ (fill : PState → PState × Option Str) (st : PState),
    st.form_data = JVal.obj [] →
    generate_pdf fill st = (st, 400) ∧
    (generate_pdf fill st).1.filled_pdf_path = st.filled_pdf_path ∧
    initState.form_data = JVal.obj [] ∧
    initState.filled_pdf_path = none := by
  intro fill st h
  have : truthy st.form_data = false := by rw [h]; rfl
  refine ⟨?_, ?_, rfl, rfl⟩ <;> simp [generate_pdf, this]

/-- Witness for C7: the freshly started processor. -/
theorem claim_C7_witness : generate_pdf fillNone initState = (initState, 400) :=
  (claim_C7 fillNone initState rfl).1

/-- C1 counterexample: the text response `"42"` parses to the number 42,
which `call_openai_api` returns as mapped data — a non-object value,
contradicting "it never returns a non-object value". -/
theorem claim_C1_counterexample :
    call_openai_api ("42".toList) = some (.int 42) ∧ isObj (.int 42) = false :=
  ⟨rfl, rfl⟩

/-- C1 (corrected): the extraction step fails (returns no mapped data)
exactly when `json.loads` of the extracted text raises or the parsed
result is JSON `null` — Python `None`, the same object as the failure
return. No object check is performed, so the non-null non-object values
(numbers, arrays, strings, booleans) are returned as Mapped Form Data;
`null` alone among the non-objects can never be returned. -/
theorem claim_C1 :
    (∀ content : Str, call_openai_api content = none ↔
      (parseJson (extractJson content) = none ∨
       parseJson (extractJson content) = some JVal.null)) ∧
    (∀ (content : Str) (v : JVal), call_openai_api content = some v →
      parseJson (extractJson content) = some v ∧ v ≠ JVal.null) ∧
    call_openai_api ("null".toList) = none ∧
    call_openai_api ("oops".toList) = none ∧
    call_openai_api ("7".toList) = some (.int 7) ∧
    call_openai_api ("[3]".toList) = some (.arr [.int 3]) ∧
    call_openai_api ("\x22hi\x22".toList) = some (.str ("hi".toList)) ∧
    call_openai_api ("true".toList) = some (.bool true) ∧
    isObj (.int 7) = false ∧ isObj (.arr [.int 3]) = false ∧
    isObj (.str ("hi".toList)) = false ∧ isObj (.bool true) = false := by
  refine ⟨?_, ?_, rfl, rfl, rfl, rfl, rfl, rfl, rfl, rfl, rfl, rfl⟩
  · intro content
    unfold call_openai_api
    rcases hp : parseJson (extractJson content) with _ | v
    · simp
    · rcases v with fs | vs | s | n | tk | b | _ <;> simp
  · intro content v h
    unfold call_openai_api at h
    rcases hp : parseJson (extractJson content) with _ | w
    · rw [hp] at h
      cases h
    · rw [hp] at h
      rcases w with fs | vs | s | n | tk | b | _ <;>
        first
          | exact Option.noConfusion h
          | (injection h with h2
             subst h2
             exact ⟨rfl, by simp⟩)

/-- Witness for C1: the theorem's returned-value characterization applied
at the response `"7"`. -/
theorem claim_C1_witness :
    parseJson (extractJson ("7".toList)) = some (.int 7) ∧
      JVal.int 7 ≠ JVal.null :=
  claim_C1.2.1 ("7".toList) (.int 7) rfl

/-!
## Helper lemmas for the Spreadsheet Loader
-/

lemma filterMap_ite {α β : Type} (p : α → Prop) [DecidablePred p] (g : α → β)
    (l : List α) :
    l.filterMap (fun x => if p x then some (g x) else none) =
      (l.filter (fun x => decide (p x))).map g := by
  induction l with
  | nil => rfl
  | cons a l ih =>
    by_cases h : p a <;> simp [List.filterMap_cons, List.filter_cons, h, ih]

lemma length_filterMap_eq_countP {α β : Type} (f : α → Option β) (l : List α) :
    (l.filterMap f).length = l.countP (fun x => (f x).isSome) := by
  induction l with
  | nil => rfl
  | cons a l ih =>
    rcases hf : f a with _ | b <;>
      simp [List.filterMap_cons, hf, List.countP_cons, ih]

lemma enumFrom_countP {α : Type} (q : α → Bool) : ∀ (n : Nat) (l : List α),
    (List.enumFrom n l).countP (fun p => q p.2) = l.countP q := by
  intro n l
  induction l generalizing n with
  | nil => rfl
  | cons a l ih => simp [List.enumFrom, List.countP_cons, ih]

/-- C4 (confirmed): on a non-empty table (empty ones fail earlier, with
the empty-table error instead of the column error) whose headers contain
no first+name column or no last+name column, loading fails and the
processor's stored roster is the empty list — never a partial roster. -/
theorem claim_C4 : ∀ (st : PState) (t : Table), dfEmpty t = false →
    (t.cols.findIdx? isFirstNameCol = none ∨ t.cols.findIdx? isLastNameCol = none) →
    (process_excel_data st t).2 = none ∧
    (process_excel_data st t).1.client_list = [] := by
  intro st t he hcol
  rcases ha : t.cols.findIdx? isFirstNameCol with _ | fi <;>
    rcases hb : t.cols.findIdx? isLastNameCol with _ | li <;>
    simp only [process_excel_data, he, Bool.false_eq_true, if_false, ha, hb] <;>
    simp_all

/-- Witness for C4: a sheet with headers `First Name`, `Surname` loaded
over a state holding a previously loaded roster. -/
theorem claim_C4_witness :
    (process_excel_data
      { initState with client_list := [mkClientEntry 0 ("Old".toList) ("Guy".toList)] }
      { cols := ["First Name".toList, "Surname".toList],
        rows := [[some ("A".toList), some ("B".toList)]] }).2 = none ∧
    (process_excel_data
      { initState with client_list := [mkClientEntry 0 ("Old".toList) ("Guy".toList)] }
      { cols := ["First Name".toList, "Surname".toList],
        rows := [[some ("A".toList), some ("B".toList)]] }).1.client_list = [] :=
  claim_C4 _ _ rfl (Or.inr rfl)

/-- C9 (confirmed): a failed load of a non-empty table — undetectable name
columns, or no qualifying rows — is not atomic: the upload handler answers
400 but the stored table has already been replaced by the new one and the
previously loaded roster by the empty list, for every prior state. -/
theorem claim_C9 : ∀ (st : PState) (t : Table), dfEmpty t = false →
    ((process_excel_data st t).2 = none ∨ (process_excel_data st t).2 = some []) →
    upload_file st t =
      ({ st with excel_data := some t, client_list := [] }, 400) := by
  intro st t he hr
  rcases ha : t.cols.findIdx? isFirstNameCol with _ | fi <;>
    rcases hb : t.cols.findIdx? isLastNameCol with _ | li <;>
    simp only [upload_file, process_excel_data, he, Bool.false_eq_true, if_false,
      ha, hb]
  case some.some =>
    have hro : extractRoster fi li t.rows = [] := by
      simpa [process_excel_data, he, ha, hb] using hr
    simp [hro]

/-- Witness for C9: a prior state with a loaded sheet and a one-client
roster, then an upload whose sheet has no last-name column. -/
theorem claim_C9_witness :
    upload_file
      { form_data := .obj [],
        excel_data := some { cols := ["First Name".toList, "Last Name".toList],
                             rows := [[some ("Old".toList), some ("Guy".toList)]] },
        client_list := [mkClientEntry 0 ("Old".toList) ("Guy".toList)],
        filled_pdf_path := none }
      { cols := ["First Name".toList, "Nickname".toList],
        rows := [[some ("A".toList), some ("B".toList)]] } =
    ({ form_data := .obj [],
       excel_data := some { cols := ["First Name".toList, "Nickname".toList],
                            rows := [[some ("A".toList), some ("B".toList)]] },
       client_list := [],
       filled_pdf_path := none }, 400) :=
  claim_C9 _ _ rfl (Or.inl rfl)

/-- C3 (confirmed): when both name columns are detected, the produced
roster has exactly one Client Entry per row whose two trimmed name cells
are non-empty (missing cells read as empty), in row order, and its length
is the count of such rows. -/
theorem claim_C3 : ∀ (st : PState) (t : Table) (fi li : Nat),
    dfEmpty t = false →
    t.cols.findIdx? isFirstNameCol = some fi →
    t.cols.findIdx? isLastNameCol = some li →
    (process_excel_data st t).2 = some (extractRoster fi li t.rows) ∧
    extractRoster fi li t.rows =
      (t.rows.enum.filter
        (fun p => decide (nameAt p.2 fi ≠ [] ∧ nameAt p.2 li ≠ []))).map
        (fun p => mkClientEntry p.1 (nameAt p.2 fi) (nameAt p.2 li)) ∧
    (extractRoster fi li t.rows).length =
      t.rows.countP (fun row => decide (nameAt row fi ≠ [] ∧ nameAt row li ≠ [])) := by
  intro st t fi li he ha hb
  have h2 : extractRoster fi li t.rows =
      (t.rows.enum.filter
        (fun p => decide (nameAt p.2 fi ≠ [] ∧ nameAt p.2 li ≠ []))).map
        (fun p => mkClientEntry p.1 (nameAt p.2 fi) (nameAt p.2 li)) :=
    filterMap_ite
      (fun p : Nat × List (Option Str) => nameAt p.2 fi ≠ [] ∧ nameAt p.2 li ≠ [])
      (fun p => mkClientEntry p.1 (nameAt p.2 fi) (nameAt p.2 li)) t.rows.enum
  refine ⟨?_, h2, ?_⟩
  · simp [process_excel_data, he, ha, hb]
  · rw [h2, List.length_map, ← List.countP_eq_length_filter]
    exact enumFrom_countP
      (fun row => decide (nameAt row fi ≠ [] ∧ nameAt row li ≠ [])) 0 t.rows

/-- Witness for C3: four rows, of which the blank-name and missing-cell
rows are skipped, giving a two-entry roster at indices 0 and 3. -/
theorem claim_C3_witness :
    (process_excel_data initState
      { cols := ["First Name".toList, "Last Name".toList],
        rows := [[some ("Ann".toList), some ("Lee".toList)],
                 [some (" ".toList), some ("X".toList)],
                 [none, some ("Y".toList)],
                 [some ("Bo".toList), some ("Ray".toList)]] }).2 =
      some [mkClientEntry 0 ("Ann".toList) ("Lee".toList),
            mkClientEntry 3 ("Bo".toList) ("Ray".toList)] ∧
    (extractRoster 0 1
      [[some ("Ann".toList), some ("Lee".toList)],
       [some (" ".toList), some ("X".toList)],
       [none, some ("Y".toList)],
       [some ("Bo".toList), some ("Ray".toList)]]).length = 2 := by
  have h := claim_C3 initState
    { cols := ["First Name".toList, "Last Name".toList],
      rows := [[some ("Ann".toList), some ("Lee".toList)],
               [some (" ".toList), some ("X".toList)],
               [none, some ("Y".toList)],
               [some ("Bo".toList), some ("Ray".toList)]] } 0 1 rfl rfl rfl
  exact ⟨h.1.trans (by rfl), h.2.2.trans (by rfl)⟩

/-!
## Helper lemmas for Form Writer translation
-/

lemma dictInsert_notMem {α : Type} (d : List (Str × α)) (k : Str) (v : α)
    (h : ∀ p ∈ d, p.1 ≠ k) : dictInsert d k v = d ++ [(k, v)] := by
  induction d with
  | nil => rfl
  | cons a d ih =>
    have ha : a.1 ≠ k := h a (List.mem_cons_self a d)
    simp only [dictInsert, if_neg ha, List.cons_append, List.cons.injEq, true_and]
    exact ih (fun p hp => h p (List.mem_cons_of_mem a hp))

lemma lookupAssoc_mem {α : Type} : ∀ {d : List (Str × α)} {k : Str} {t : α},
    lookupAssoc d k = some t → (k, t) ∈ d := by
  intro d
  induction d with
  | nil => intro k t h; exact absurd h (by simp [lookupAssoc])
  | cons a d ih =>
    intro k t h
    by_cases he : a.1 = k
    · rcases a with ⟨k', v'⟩
      simp only [lookupAssoc, if_pos he] at h
      injection h with h
      subst h
      subst he
      exact List.mem_cons_self _ _
    · rcases a with ⟨k', v'⟩
      simp only [lookupAssoc, if_neg he] at h
      exact List.mem_cons_of_mem _ (ih h)

lemma fieldMapping_targets_nodup : (fieldMapping.map Prod.snd).Nodup := by decide

lemma fieldMapping_inj {k1 k2 : Str} {t1 t2 : Str} (hk : k1 ≠ k2)
    (h1 : lookupAssoc fieldMapping k1 = some t1)
    (h2 : lookupAssoc fieldMapping k2 = some t2) : t1 ≠ t2 := by
  intro he
  have m1 := lookupAssoc_mem h1
  have m2 := lookupAssoc_mem h2
  have := List.inj_on_of_nodup_map fieldMapping_targets_nodup m1 m2 (by simp [he])
  exact hk (congrArg Prod.fst this)

lemma transformAux_spec : ∀ (fd acc : List (Str × JVal)),
    (fd.map Prod.fst).Nodup →
    (∀ kv ∈ fd, ∀ tgt, lookupAssoc fieldMapping kv.1 = some tgt →
      ∀ p ∈ acc, p.1 ≠ tgt) →
    transformAux acc fd = acc ++ fd.filterMap
      (fun kv => (lookupAssoc fieldMapping kv.1).map
        (fun tgt => (tgt, transformValue kv.1 kv.2))) := by
  intro fd
  induction fd with
  | nil => intro acc _ _; simp [transformAux]
  | cons kv rest ih =>
    intro acc hnd hacc
    rcases kv with ⟨k, v⟩
    have hnd2 : (k :: rest.map Prod.fst).Nodup := by simpa using hnd
    have hnd' : k ∉ rest.map Prod.fst ∧ (rest.map Prod.fst).Nodup :=
      List.nodup_cons.mp hnd2
    rcases hl : lookupAssoc fieldMapping k with _ | tgt
    · simp only [transformAux, hl]
      rw [ih acc hnd'.2 (fun kv2 h2 => hacc kv2 (List.mem_cons_of_mem _ h2))]
      simp [List.filterMap_cons, hl]
    · have hdi : dictInsert acc tgt (transformValue k v) =
          acc ++ [(tgt, transformValue k v)] :=
        dictInsert_notMem acc tgt _
          (fun p hp => hacc (k, v) (List.mem_cons_self _ _) tgt hl p hp)
      have hcond : ∀ kv2 ∈ rest, ∀ t2, lookupAssoc fieldMapping kv2.1 = some t2 →
          ∀ p ∈ acc ++ [(tgt, transformValue k v)], p.1 ≠ t2 := by
        intro kv2 h2 t2 hl2 p hp
        rcases List.mem_append.mp hp with hp | hp
        · exact hacc kv2 (List.mem_cons_of_mem _ h2) t2 hl2 p hp
        · have hpe : p = (tgt, transformValue k v) := by simpa using hp
          have hk2 : k ≠ kv2.1 := by
            intro he
            exact hnd'.1 (he ▸ List.mem_map_of_mem Prod.fst h2)
          have := fieldMapping_inj hk2 hl hl2
          simpa [hpe] using this
      simp only [transformAux, hl]
      rw [hdi, ih _ hnd'.2 hcond]
      simp [List.filterMap_cons, hl]

/-- C5 (confirmed): the translation step keeps exactly one entry per input
key present in the Field Dictionary, bound to that key's target
identifier (with the birth-date value transformation applied); unknown
keys are dropped without error, as in the claim's concrete example. -/
theorem claim_C5 :
    (∀ fd : List (Str × JVal), (fd.map Prod.fst).Nodup →
      transform_data_to_pdf_format fd =
        fd.filterMap (fun kv => (lookupAssoc fieldMapping kv.1).map
          (fun tgt => (tgt, transformValue kv.1 kv.2)))) ∧
    (∀ fd : List (Str × JVal), (fd.map Prod.fst).Nodup →
      (transform_data_to_pdf_format fd).length =
        fd.countP (fun kv => (lookupAssoc fieldMapping kv.1).isSome)) ∧
    transform_data_to_pdf_format
      [("unknown_key".toList, .str ("x".toList)),
       ("first_name".toList, .str ("Jane".toList))] =
      [("topmostSubform[0].Page1[0].f1_07[0]".toList, .str ("Jane".toList))] := by
  have hmain : ∀ fd : List (Str × JVal), (fd.map Prod.fst).Nodup →
      transform_data_to_pdf_format fd =
        fd.filterMap (fun kv => (lookupAssoc fieldMapping kv.1).map
          (fun tgt => (tgt, transformValue kv.1 kv.2))) := by
    intro fd hnd
    have := transformAux_spec fd [] hnd (by simp)
    simpa [transform_data_to_pdf_format] using this
  refine ⟨hmain, ?_, rfl⟩
  intro fd hnd
  rw [hmain fd hnd, length_filterMap_eq_countP]
  have hfun : (fun kv : Str × JVal =>
      ((lookupAssoc fieldMapping kv.1).map
        (fun tgt => (tgt, transformValue kv.1 kv.2))).isSome) =
      fun kv : Str × JVal => (lookupAssoc fieldMapping kv.1).isSome := by
    funext kv
    rcases h : lookupAssoc fieldMapping kv.1 with _ | tgt <;> simp [h]
  rw [hfun]

/-- Witness for C5: the claim's example input, with its two distinct keys,
translated through the theorem. -/
theorem claim_C5_witness :
    transform_data_to_pdf_format
      [("unknown_key".toList, .str ("x".toList)),
       ("first_name".toList, .str ("Jane".toList))] =
      [("topmostSubform[0].Page1[0].f1_07[0]".toList, .str ("Jane".toList))] ∧
    (transform_data_to_pdf_format
      [("unknown_key".toList, .str ("x".toList)),
       ("first_name".toList, .str ("Jane".toList))]).length = 1 := by
  have h := claim_C5.2.1
    [("unknown_key".toList, JVal.str ("x".toList)),
     ("first_name".toList, JVal.str ("Jane".toList))] (by decide)
  exact ⟨claim_C5.2.2, h.trans (by rfl)⟩

/-!
## Helper lemma for client lookup
-/

lemma find?_append_first {α : Type} (p : α → Bool) (l1 : List α) (c : α) (l2 : List α)
    (h1 : ∀ x ∈ l1, p x = false) (hc : p c = true) :
    List.find? p (l1 ++ c :: l2) = some c := by
  induction l1 with
  | nil => simp [List.find?_cons, hc]
  | cons a l1 ih =>
    have ha : p a = false := h1 a (List.mem_cons_self a l1)
    simp only [List.cons_append, List.find?_cons, ha]
    exact ih (fun x hx => h1 x (List.mem_cons_of_mem a hx))

/-- C8 (confirmed): client lookup compares both names case-insensitively
(`.lower()` equality) and resolves duplicates by the first matching roster
entry, returning the cleaned dict of that entry's stored row; with no
matching entry it returns no client (the handler's 404). -/
theorem claim_C8 :
    (∀ (st : PState) (t : Table) (fn ln : Str) (l1 : List ClientEntry)
        (c : ClientEntry) (l2 : List ClientEntry) (row : List (Option Str)),
      st.excel_data = some t →
      st.client_list = l1 ++ c :: l2 →
      (∀ c2 ∈ l1, clientMatches fn ln c2 = false) →
      clientMatches fn ln c = true →
      t.rows.get? c.row_index = some row →
      get_client_data st fn ln = some (cleanRow t.cols row)) ∧
    (∀ (st : PState) (fn ln : Str),
      (∀ c ∈ st.client_list, clientMatches fn ln c = false) →
      get_client_data st fn ln = none) := by
  constructor
  · intro st t fn ln l1 c l2 row he hcl h1 hc hrow
    simp only [get_client_data, he, hcl,
      find?_append_first (clientMatches fn ln) l1 c l2 h1 hc, hrow]
  · intro st fn ln h
    unfold get_client_data
    rcases he : st.excel_data with _ | t
    · rfl
    · rw [List.find?_eq_none.mpr (fun x hx => by simp [h x hx])]

/-- A two-client sheet whose second client repeats the first's name in
upper case, for the C8 witness. -/
def tblDup : Table :=
  { cols := ["First Name".toList, "Last Name".toList, "City".toList],
    rows := [[some ("Ann".toList), some ("Lee".toList), some ("Rome".toList)],
             [some ("ANN".toList), some ("LEE".toList), some ("Oslo".toList)]] }

def stDup : PState :=
  { form_data := .obj [],
    excel_data := some tblDup,
    client_list := [mkClientEntry 0 ("Ann".toList) ("Lee".toList),
                    mkClientEntry 1 ("ANN".toList) ("LEE".toList)],
    filled_pdf_path := none }

/-- Witness for C8: two roster entries with the same name up to case; a
mixed-case query returns the first entry's row, and an unknown name
returns nothing. -/
theorem claim_C8_witness :
    get_client_data stDup ("aNn".toList) ("lEe".toList) =
      some [("first_name".toList, "Ann".toList),
            ("last_name".toList, "Lee".toList),
            ("city".toList, "Rome".toList)] ∧
    get_client_data stDup ("Bob".toList) ("Lee".toList) = none := by
  constructor
  · exact (claim_C8.1 stDup tblDup ("aNn".toList) ("lEe".toList) []
      (mkClientEntry 0 ("Ann".toList) ("Lee".toList))
      [mkClientEntry 1 ("ANN".toList) ("LEE".toList)]
      [some ("Ann".toList), some ("Lee".toList), some ("Rome".toList)]
      rfl rfl (by intro c2 hc2; cases hc2) (by decide) rfl).trans (by rfl)
  · exact claim_C8.2 stDup ("Bob".toList) ("Lee".toList) (by decide)

/-!
## Helper lemmas for JSON extraction (C6)
-/

lemma fence3_eq : fence3 = [btick, btick, btick] := rfl

lemma fenceJson_eq : fenceJson = [btick, btick, btick, 'j', 's', 'o', 'n'] := rfl

lemma isPrefixOf_append_self (l r : Str) : l.isPrefixOf (l ++ r) = true := by
  induction l with
  | nil => simp [List.isPrefixOf]
  | cons a l ih => simp [List.isPrefixOf, ih]

lemma isPrefixOf_append_same (l a b : Str) :
    (l ++ a).isPrefixOf (l ++ b) = a.isPrefixOf b := by
  induction l with
  | nil => rfl
  | cons x l ih => simp [List.isPrefixOf, ih]

lemma isPrefixOf_head {x : Char} {xs l : Str}
    (h : (x :: xs).isPrefixOf l = true) : l.head? = some x := by
  cases l with
  | nil => exact absurd h (by simp [List.isPrefixOf])
  | cons b bs =>
    simp only [List.isPrefixOf, Bool.and_eq_true, beq_iff_eq] at h
    rw [h.1]
    rfl

lemma mem_of_head?_some {α : Type} {l : List α} {x : α} (h : l.head? = some x) :
    x ∈ l := by
  cases l with
  | nil => cases h
  | cons a l =>
    injection h with h
    rw [← h]
    exact List.mem_cons_self a l

lemma isPrefixOf_false_of_head_notMem {x : Char} {xs l : Str} (h : x ∉ l) :
    (x :: xs).isPrefixOf l = false := by
  cases hp : (x :: xs).isPrefixOf l
  · rfl
  · exact absurd (mem_of_head?_some (isPrefixOf_head hp)) h

lemma pyFind_of_isPrefixOf {t pat : Str} (h : pat.isPrefixOf t = true) :
    pyFind t pat = some 0 := by
  cases t with
  | nil =>
    cases pat with
    | nil => rfl
    | cons a as => exact absurd h (by simp [List.isPrefixOf])
  | cons a rest => simp [pyFind, h]

lemma pyFind_cons_of_neg {x : Char} {rest pat : Str}
    (h : pat.isPrefixOf (x :: rest) = false) :
    pyFind (x :: rest) pat = (pyFind rest pat).map (· + 1) := by
  simp [pyFind, h]

lemma pyFind_eq_none_of_notMem {t pat : Str} {c : Char} (hc : pat.head? = some c)
    (h : c ∉ t) : pyFind t pat = none := by
  induction t with
  | nil =>
    cases pat with
    | nil => cases hc
    | cons a as => rfl
  | cons a rest ih =>
    obtain ⟨pat', rfl⟩ : ∃ pat', pat = c :: pat' := by
      cases pat with
      | nil => cases hc
      | cons p ps => exact ⟨ps, by injection hc with hc; rw [hc]⟩
    have hne : c ≠ a := fun he => h (he ▸ List.mem_cons_self a rest)
    have hp : (c :: pat').isPrefixOf (a :: rest) = false := by
      simp [List.isPrefixOf, hne]
    rw [pyFind_cons_of_neg hp, ih (fun hm => h (List.mem_cons_of_mem a hm))]
    rfl

lemma pyFind_append_shift {pre : Str} (r pat : Str) {c : Char}
    (hc : pat.head? = some c) (h : c ∉ pre) :
    pyFind (pre ++ r) pat = (pyFind r pat).map (· + pre.length) := by
  induction pre with
  | nil => cases hf : pyFind r pat <;> simp [hf]
  | cons a pre ih =>
    obtain ⟨pat', rfl⟩ : ∃ pat', pat = c :: pat' := by
      cases pat with
      | nil => cases hc
      | cons p ps => exact ⟨ps, by injection hc with hc; rw [hc]⟩
    have hne : c ≠ a := fun he => h (he ▸ List.mem_cons_self a pre)
    have hp : (c :: pat').isPrefixOf (a :: (pre ++ r)) = false := by
      simp [List.isPrefixOf, hne]
    rw [List.cons_append, pyFind_cons_of_neg hp,
      ih (fun hm => h (List.mem_cons_of_mem a hm))]
    cases hf : pyFind r (c :: pat') <;> simp [hf]
    omega

lemma pyRFindChar_append_of_some {l r : Str} {ch : Char} {i : Nat}
    (h : pyRFindChar r ch = some i) :
    pyRFindChar (l ++ r) ch = some (l.length + i) := by
  induction l with
  | nil => simpa using h
  | cons a l ih =>
    rw [List.cons_append]
    simp only [pyRFindChar, ih]
    simp only [List.length_cons]
    congr 1
    omega

lemma pyRFindChar_eq_none_of_notMem {r : Str} {ch : Char} (h : ch ∉ r) :
    pyRFindChar r ch = none := by
  induction r with
  | nil => rfl
  | cons a r ih =>
    have hne : a ≠ ch := fun he => h (he ▸ List.mem_cons_self a r)
    rw [pyRFindChar, ih (fun hm => h (List.mem_cons_of_mem a hm))]
    simp [hne]

lemma pyRFindChar_append_none {l r : Str} {ch : Char} (h : ch ∉ r) :
    pyRFindChar (l ++ r) ch = pyRFindChar l ch := by
  induction l with
  | nil => simp [pyRFindChar_eq_none_of_notMem h, pyRFindChar]
  | cons a l ih => rw [List.cons_append, pyRFindChar, ih, pyRFindChar]

lemma pyRFindChar_getLast {l : Str} {ch : Char} (h : l.getLast? = some ch) :
    pyRFindChar l ch = some (l.length - 1) := by
  induction l with
  | nil => cases h
  | cons a l ih =>
    cases l with
    | nil =>
      have ha : a = ch := by simpa [List.getLast?] using h
      simp [pyRFindChar, ha]
    | cons b l2 =>
      have hl : (b :: l2).getLast? = some ch := by
        rw [List.getLast?_cons_cons] at h
        exact h
      rw [pyRFindChar, ih hl]
      simp [List.length_cons]

lemma ex_cons_of_head {S : Str} {c : Char} (h : S.head? = some c) :
    ∃ S2, S = c :: S2 := by
  cases S with
  | nil => cases h
  | cons a S2 => exact ⟨S2, by injection h with h; rw [h]⟩

lemma pyFind_fence3_skip {M : Str} (hM : M.head? = some lbrace) :
    pyFind (fence3 ++ M) fenceJson = (pyFind M fenceJson).map (· + 3) := by
  obtain ⟨M2, rfl⟩ := ex_cons_of_head hM
  have hj : (('j' : Char) == lbrace) = false := by decide
  have hbl : (btick == lbrace) = false := by decide
  have h0 : fenceJson.isPrefixOf
      (btick :: btick :: btick :: lbrace :: M2) = false := by
    simp [fenceJson_eq, List.isPrefixOf, hj]
  have h1 : fenceJson.isPrefixOf (btick :: btick :: lbrace :: M2) = false := by
    simp [fenceJson_eq, List.isPrefixOf, hbl]
  have h2 : fenceJson.isPrefixOf (btick :: lbrace :: M2) = false := by
    simp [fenceJson_eq, List.isPrefixOf, hbl]
  have hsh : fence3 ++ (lbrace :: M2) = btick :: btick :: btick :: lbrace :: M2 := rfl
  rw [hsh, pyFind_cons_of_neg h0, pyFind_cons_of_neg h1, pyFind_cons_of_neg h2]
  cases hf : pyFind (lbrace :: M2) fenceJson <;> simp [hf]

lemma pyFind_fenceJson_close {post : Str} (hb : btick ∉ post)
    (hpj : ("json".toList).isPrefixOf post = false) :
    pyFind (fence3 ++ post) fenceJson = none := by
  have h0 : fenceJson.isPrefixOf (btick :: btick :: btick :: post) = false := by
    have hpj2 : (['j', 's', 'o', 'n'] : Str).isPrefixOf post = false := hpj
    simp [fenceJson_eq, List.isPrefixOf, hpj2]
  have h1 : fenceJson.isPrefixOf (btick :: btick :: post) = false := by
    have : ((btick :: 'j' :: 's' :: 'o' :: 'n' :: []) : Str).isPrefixOf post = false :=
      isPrefixOf_false_of_head_notMem hb
    simp [fenceJson_eq, List.isPrefixOf, this]
  have h2 : fenceJson.isPrefixOf (btick :: post) = false := by
    have : ((btick :: btick :: 'j' :: 's' :: 'o' :: 'n' :: []) : Str).isPrefixOf post
        = false := isPrefixOf_false_of_head_notMem hb
    simp [fenceJson_eq, List.isPrefixOf, this]
  have hsh : fence3 ++ post = btick :: btick :: btick :: post := rfl
  have hnone : pyFind post fenceJson = none :=
    pyFind_eq_none_of_notMem (c := btick) rfl hb
  rw [hsh, pyFind_cons_of_neg h0, pyFind_cons_of_neg h1, pyFind_cons_of_neg h2,
    hnone]
  rfl

lemma pyStrip_eq_self {S : Str} (hh : S.head? = some lbrace)
    (hl : S.getLast? = some rbrace) : pyStrip S = S := by
  obtain ⟨S2, rfl⟩ := ex_cons_of_head hh
  have hlb : isPySpace lbrace = false := by decide
  have hrb : isPySpace rbrace = false := by decide
  have h1 : (lbrace :: S2).dropWhile isPySpace = lbrace :: S2 := by
    simp [List.dropWhile_cons, hlb]
  obtain ⟨R2, hr⟩ := ex_cons_of_head ((List.head?_reverse (lbrace :: S2)).symm ▸ hl)
  have h2 : (lbrace :: S2).reverse.dropWhile isPySpace = (lbrace :: S2).reverse := by
    rw [hr]
    simp [List.dropWhile_cons, hrb]
  rw [pyStrip, h1, h2, List.reverse_reverse]

lemma length_ge_two {S : Str} (hh : S.head? = some lbrace)
    (hl : S.getLast? = some rbrace) : 2 ≤ S.length := by
  obtain ⟨S2, rfl⟩ := ex_cons_of_head hh
  cases S2 with
  | nil => exact absurd (by simpa [List.getLast?] using hl) (by decide)
  | cons b l2 => simp [List.length_cons]
  
lemma singleton_isPrefixOf_cons (x : Char) (xs : Str) :
    ([x] : Str).isPrefixOf (x :: xs) = true := by
  simp [List.isPrefixOf]

lemma bracePhase_id {S : Str} (hh : S.head? = some lbrace)
    (hl : S.getLast? = some rbrace) : bracePhase S = S := by
  have h2 := length_ge_two hh hl
  obtain ⟨S2, rfl⟩ := ex_cons_of_head hh
  have hfind : pyFind (lbrace :: S2) [lbrace] = some 0 :=
    pyFind_of_isPrefixOf (singleton_isPrefixOf_cons lbrace S2)
  have hrfind : pyRFindChar (lbrace :: S2) rbrace = some ((lbrace :: S2).length - 1) :=
    pyRFindChar_getLast hl
  simp only [bracePhase, hfind, hrfind]
  have hlt : 0 < (lbrace :: S2).length - 1 := by
    simp only [List.length_cons] at h2 ⊢
    omega
  rw [if_pos hlt]
  have harith : (lbrace :: S2).length - 1 + 1 - 0 = (lbrace :: S2).length := by
    omega
  rw [pySlice, List.drop_zero, harith, List.take_length]

/-!
## The three response wrapper shapes of C6
-/

/-- Serialized object between raw commentary. -/
def rawShape (pre S post : Str) : Str := pre ++ (S ++ post)

/-- Serialized object inside a plain fenced block. -/
def plainFencedShape (pre S post : Str) : Str :=
  pre ++ (fence3 ++ (S ++ (fence3 ++ post)))

/-- Serialized object inside a fenced block tagged as JSON. -/
def jsonFencedShape (pre S post : Str) : Str :=
  pre ++ (fenceJson ++ (S ++ (fence3 ++ post)))

lemma extract_raw {pre S post : Str}
    (hbq : btick ∉ pre) (hbS : btick ∉ S) (hbp : btick ∉ post)
    (hlp : lbrace ∉ pre) (hrp : rbrace ∉ post)
    (hh : S.head? = some lbrace) (hl : S.getLast? = some rbrace) :
    extractJson (rawShape pre S post) = S := by
  have h2 := length_ge_two hh hl
  have hball : btick ∉ pre ++ (S ++ post) := by
    intro hm
    rcases List.mem_append.mp hm with h | h
    · exact hbq h
    rcases List.mem_append.mp h with h | h
    · exact hbS h
    · exact hbp h
  have hfj : pyFind (rawShape pre S post) fenceJson = none :=
    pyFind_eq_none_of_notMem (c := btick) rfl hball
  have hf3 : pyFind (rawShape pre S post) fence3 = none :=
    pyFind_eq_none_of_notMem (c := btick) rfl hball
  have hfence : fencePhase (rawShape pre S post) = rawShape pre S post := by
    simp [fencePhase, hasSub, hfj, hf3]
  obtain ⟨S2, hS⟩ := ex_cons_of_head hh
  have hpr : ([lbrace] : Str).isPrefixOf (S ++ post) = true := by
    rw [hS, List.cons_append]
    exact singleton_isPrefixOf_cons lbrace (S2 ++ post)
  have hfindl : pyFind (rawShape pre S post) [lbrace] = some pre.length := by
    rw [rawShape, pyFind_append_shift (S ++ post) [lbrace] (c := lbrace) rfl hlp,
      pyFind_of_isPrefixOf hpr]
    simp
  have hin : pyRFindChar (S ++ post) rbrace = some (S.length - 1) := by
    rw [pyRFindChar_append_none hrp, pyRFindChar_getLast hl]
  have hrfindr : pyRFindChar (rawShape pre S post) rbrace =
      some (pre.length + (S.length - 1)) := by
    rw [rawShape, pyRFindChar_append_of_some hin]
  rw [extractJson, hfence]
  simp only [bracePhase, hfindl, hrfindr]
  have hlt : pre.length < pre.length + (S.length - 1) := by omega
  rw [if_pos hlt]
  have harith : pre.length + (S.length - 1) + 1 - pre.length = S.length := by omega
  rw [rawShape, pySlice, harith, List.drop_left, List.take_left]

lemma extract_plain {pre S post : Str}
    (hbq : btick ∉ pre) (hbS : btick ∉ S) (hbp : btick ∉ post)
    (hh : S.head? = some lbrace) (hl : S.getLast? = some rbrace)
    (hpj : ("json".toList).isPrefixOf post = false) :
    extractJson (plainFencedShape pre S post) = S := by
  have hMhead : (S ++ (fence3 ++ post)).head? = some lbrace := by
    obtain ⟨S2, hS⟩ := ex_cons_of_head hh
    rw [hS]
    rfl
  have hdrop : (plainFencedShape pre S post).drop (pre.length + 3) =
      S ++ (fence3 ++ post) := by
    have hT : plainFencedShape pre S post =
        (pre ++ fence3) ++ (S ++ (fence3 ++ post)) := by
      rw [plainFencedShape, List.append_assoc]
    have hlen : pre.length + 3 = (pre ++ fence3).length := by
      simp [fence3_eq]
    rw [hT, hlen, List.drop_left]
  have hfj : pyFind (plainFencedShape pre S post) fenceJson = none := by
    rw [plainFencedShape,
      pyFind_append_shift _ fenceJson (c := btick) rfl hbq,
      pyFind_fence3_skip hMhead,
      pyFind_append_shift _ fenceJson (c := btick) rfl hbS,
      pyFind_fenceJson_close hbp hpj]
    rfl
  have hf3 : pyFind (plainFencedShape pre S post) fence3 = some pre.length := by
    rw [plainFencedShape,
      pyFind_append_shift _ fence3 (c := btick) rfl hbq,
      pyFind_of_isPrefixOf (isPrefixOf_append_self fence3 _)]
    simp
  have hfrom : pyFindFrom (plainFencedShape pre S post) fence3 (pre.length + 3) =
      some (S.length + (pre.length + 3)) := by
    rw [pyFindFrom, hdrop,
      pyFind_append_shift _ fence3 (c := btick) rfl hbS,
      pyFind_of_isPrefixOf (isPrefixOf_append_self fence3 post)]
    simp
  have hslice : pySlice (plainFencedShape pre S post) (pre.length + 3)
      (S.length + (pre.length + 3)) = S := by
    have harith : S.length + (pre.length + 3) - (pre.length + 3) = S.length := by
      omega
    rw [pySlice, hdrop, harith, List.take_left]
  simp only [extractJson, fencePhase, hasSub, hfj, hf3, hfrom, Option.isSome_none,
    Option.isSome_some, Bool.false_eq_true, if_false, if_true, hslice,
    pyStrip_eq_self hh hl]
  exact bracePhase_id hh hl

lemma extract_jsonF {pre S post : Str}
    (hbq : btick ∉ pre) (hbS : btick ∉ S)
    (hh : S.head? = some lbrace) (hl : S.getLast? = some rbrace) :
    extractJson (jsonFencedShape pre S post) = S := by
  have hdrop : (jsonFencedShape pre S post).drop (pre.length + 7) =
      S ++ (fence3 ++ post) := by
    have hT : jsonFencedShape pre S post =
        (pre ++ fenceJson) ++ (S ++ (fence3 ++ post)) := by
      rw [jsonFencedShape, List.append_assoc]
    have hlen : pre.length + 7 = (pre ++ fenceJson).length := by
      simp [fenceJson_eq]
    rw [hT, hlen, List.drop_left]
  have hfj : pyFind (jsonFencedShape pre S post) fenceJson = some pre.length := by
    rw [jsonFencedShape,
      pyFind_append_shift _ fenceJson (c := btick) rfl hbq,
      pyFind_of_isPrefixOf (isPrefixOf_append_self fenceJson _)]
    simp
  have hfrom : pyFindFrom (jsonFencedShape pre S post) fence3 (pre.length + 7) =
      some (S.length + (pre.length + 7)) := by
    rw [pyFindFrom, hdrop,
      pyFind_append_shift _ fence3 (c := btick) rfl hbS,
      pyFind_of_isPrefixOf (isPrefixOf_append_self fence3 post)]
    simp
  have hslice : pySlice (jsonFencedShape pre S post) (pre.length + 7)
      (S.length + (pre.length + 7)) = S := by
    have harith : S.length + (pre.length + 7) - (pre.length + 7) = S.length := by
      omega
    rw [pySlice, hdrop, harith, List.take_left]
  simp only [extractJson, fencePhase, hasSub, hfj, hfrom, Option.isSome_some,
    if_true, hslice, pyStrip_eq_self hh hl]
  exact bracePhase_id hh hl

/-- C6 counterexample: for the object `{}` with surrounding commentary
`pre = "{"`, `post = ""`, the raw shape fails to parse (the brace trim
grabs `{{}`) while the JSON-tagged fenced shape yields the object — so
the three wrapper shapes do not agree for arbitrary commentary. -/
theorem claim_C6_counterexample :
    parseJson ("\x7b\x7d".toList) = some (.obj []) ∧
    extractAndParse (rawShape ("\x7b".toList) ("\x7b\x7d".toList) []) = none ∧
    extractAndParse (jsonFencedShape ("\x7b".toList) ("\x7b\x7d".toList) []) =
      some (.obj []) :=
  ⟨rfl, rfl, rfl⟩

/-- C6 (corrected): the three wrapper shapes yield the same parsed object
for commentary that contains no code fence, where the leading commentary
contains no `{` and the trailing commentary no `}` (needed by the raw
shape's first-`{`/last-`}` trim), and where the trailing commentary does
not begin with `json` right after the closing fence (which would
re-anchor the tagged-fence search): for any JSON-parseable serialization
`S` of an object `O` (brace-delimited, no backticks), the extraction step
returns `O` for the raw, plain-fenced, and JSON-tagged-fenced shapes
alike. -/
theorem claim_C6 : ∀ (O : JVal) (S pre post : Str),
    parseJson S = some O →
    S.head? = some lbrace → S.getLast? = some rbrace →
    btick ∉ S → btick ∉ pre → btick ∉ post →
    lbrace ∉ pre → rbrace ∉ post →
    ("json".toList).isPrefixOf post = false →
    extractAndParse (rawShape pre S post) = some O ∧
    extractAndParse (plainFencedShape pre S post) = some O ∧
    extractAndParse (jsonFencedShape pre S post) = some O := by
  intro O S pre post hparse hh hl hbS hbq hbp hlp hrp hpj
  refine ⟨?_, ?_, ?_⟩
  · rw [extractAndParse, extract_raw hbq hbS hbp hlp hrp hh hl, hparse]
  · rw [extractAndParse, extract_plain hbq hbS hbp hh hl hpj, hparse]
  · rw [extractAndParse, extract_jsonF hbq hbS hh hl, hparse]

/-- Witness for C6: `{"a": 1}` with commentary `"Sure: "` and `" ok."`
in all three shapes. -/
theorem claim_C6_witness :
    extractAndParse (rawShape ("Sure: ".toList) ("\x7b\x22a\x22: 1\x7d".toList)
      (" ok.".toList)) = some (.obj [("a".toList, .int 1)]) ∧
    extractAndParse (plainFencedShape ("Sure: ".toList)
      ("\x7b\x22a\x22: 1\x7d".toList) (" ok.".toList)) =
      some (.obj [("a".toList, .int 1)]) ∧
    extractAndParse (jsonFencedShape ("Sure: ".toList)
      ("\x7b\x22a\x22: 1\x7d".toList) (" ok.".toList)) =
      some (.obj [("a".toList, .int 1)]) :=
  claim_C6 (.obj [("a".toList, .int 1)]) ("\x7b\x22a\x22: 1\x7d".toList)
    ("Sure: ".toList) (" ok.".toList) rfl rfl rfl (by decide) (by decide)
    (by decide) (by decide) (by decide) (by decide)
